import Mathlib

/-!
Shallow embedding of `src/document_hunter.py` (class `SGMADocumentHunter`).

The browser/DOM layer (playwright, BeautifulSoup) is an external collaborator;
it is modelled as an environment record holding the HTML snapshots the code
reads.  All the decision logic of the Python source — header-role mapping,
row scanning / latest-year selection, the two annual-report strategies, the
GSP sub-page hop, and the top-level merge — is translated function by
function.  The Python `in` substring test, `re.search` with the four-digit
pattern, BeautifulSoup `find` / `find_all` / `find_parent`, and attribute
access (subscripting `href` raises `KeyError` on a missing attribute, while
the `get` method returns `None`)
are each given explicit executable counterparts.  Exceptions are modelled with
`Except`: the Python `get_basin_documents` has a `try`/`finally` with no
`except` clause, so an error raised inside the `try` propagates to the caller
(the `finally` only closes the browser and is irrelevant to the returned
value).
-/

namespace DocumentHunter

/-- The Python substring test `needle in hay` on the character lists:
true iff `needle` occurs as a contiguous run inside `hay`. -/
def sublistOf : List Char → List Char → Bool
  | needle, [] => needle.isEmpty
  | needle, c :: rest => needle.isPrefixOf (c :: rest) || sublistOf needle rest

/-- The Python `needle in hay` test on strings. -/
def strIn (needle hay : String) : Bool := sublistOf needle.toList hay.toList

/-- The Python `lower()` method, character-wise (ASCII case folding — the
granularity at which the source uses it). -/
def toLowerStr (s : String) : String := ⟨s.toList.map Char.toLower⟩

/-- Numeric value of an ASCII digit character. -/
def digitVal (c : Char) : Nat := c.toNat - 48

/-- A match of `\d{4}` anchored at the head of the character list:
`some v` when the first four characters exist and are all digits, with `v`
their decimal value (Python `int(match.group(0))`). -/
def fourAt : List Char → Option Nat
  | a :: b :: c :: d :: _ =>
    if a.isDigit && b.isDigit && c.isDigit && d.isDigit then
      some (((digitVal a * 10 + digitVal b) * 10 + digitVal c) * 10 + digitVal d)
    else none
  | _ => none

/-- `re.search` of the four-digit pattern on the character list: the leftmost position at
which four consecutive digits start wins, and its value is returned. -/
def search4Chars : List Char → Option Nat
  | [] => none
  | c :: cs =>
    match fourAt (c :: cs) with
    | some v => some v
    | none => search4Chars cs

/-- `re.search` of the four-digit pattern followed by `int(...)` on the matched group,
as used on the year-cell text (`document_hunter.py` lines 122-127). -/
def search4 (s : String) : Option Nat := search4Chars s.toList

/-- An `<a>` tag as the code reads it: its string content (BeautifulSoup
`tag.string`, the text the `string=` lambdas receive) and its `href`
attribute (`none` models an absent attribute, `some ""` an empty one;
subscripting `href` raises `KeyError` exactly when it is `none`, while
the `get` method yields a falsy value when it is `none` or `some ""`). -/
structure Anchor where
  text : String
  href : Option String
deriving Repr, DecidableEq

/-- One `<td>` cell of a listing-table row: its stripped text
(`get_text(strip=True)`) and its first `<a>` descendant (`cols[i].find("a")`),
`none` when the cell holds no hyperlink. -/
structure Cell where
  text : String
  firstLink : Option Anchor
deriving Repr, DecidableEq

instance : Inhabited Cell := ⟨⟨"", none⟩⟩

/-- One listing-table row: its `<td>` cells in order (`row.find_all("td")`). -/
structure Row where
  cells : List Cell
deriving Repr, DecidableEq

/-- The listing-page snapshot the code reads before filtering: the header-row
cell texts (`th`/`td` of the first `tr` of `thead`, or of the first `tr` of the table). -/
structure ListingSnapshot where
  headers : List String
deriving Repr, DecidableEq

/-- Environment of `_find_basin_page`: `load = none` models the initial
`page.goto` / `wait_for_selector("table", …)` raising a timeout error;
`filteredRows` are the rows of the re-read table after the filter interaction,
already without the first `tr` (the code slices `find_all("tr")[1:]`). -/
structure ListingEnv where
  load : Option ListingSnapshot
  filteredRows : List Row
deriving Repr, DecidableEq

/-- An ancestor element of the located "Annual Report PDF" text node, with its
tag name and the `<a>` descendants of its subtree in document order (what
`container.find("a", …)` scans). -/
structure Container where
  tag : String
  anchors : List Anchor
deriving Repr, DecidableEq

/-- The detail-page snapshot `_harvest_pdfs` parses: all `<a>` tags in
document order, and — when some text node contains the phrase
"Annual Report PDF" (`soup.find(string=…)`) — the ancestor elements of that node,
nearest first (what `find_parent` walks); `none` when no such text node
exists. -/
structure DetailPage where
  anchors : List Anchor
  annualAncestors : Option (List Container)
deriving Repr, DecidableEq

/-- The GSP sub-page snapshot: its `<a>` tags in document order. -/
structure SubPage where
  anchors : List Anchor
deriving Repr, DecidableEq

/-- Full per-query environment: the listing phase, the detail page, and the
outcome of the GSP sub-page hop (`gspNav = none` models `page.goto` on the
sub-page — or the subsequent parse — raising, which the code catches). -/
structure QueryEnv where
  listing : ListingEnv
  detail : DetailPage
  gspNav : Option SubPage
deriving Repr, DecidableEq

/-- Errors that escape the Python functions (there is no `except` clause in
`get_basin_documents`, so these reach the caller). -/
inductive QueryError where
  /-- Playwright timeout from the initial listing-table load. -/
  | tableTimeout
  /-- `KeyError` from subscripting `href` on `pdf_link` when the Strategy-A
  match has no `href` attribute. -/
  | keyError
deriving Repr, DecidableEq

/-- `self.DOMAIN` in the source. -/
def DOMAIN : String := "https://sgma.water.ca.gov"

/-- Header-role mapping (`document_hunter.py` lines 83-90): lower-case every
header text, then take the first index whose text contains `"basin"` and the
first whose text contains `"year"`; `none` models the caught `StopIteration`
when either generator is empty. -/
def firstIdx (p : String → Bool) : List String → Option Nat
  | [] => none
  | h :: t => if p h then some 0 else (firstIdx p t).map (· + 1)

/-- The pair `(basin_idx, year_idx)` or `none` on mapping failure. -/
def mapHeaders (headers : List String) : Option (Nat × Nat) :=
  match firstIdx (fun h => strIn "basin" h) (headers.map toLowerStr),
        firstIdx (fun h => strIn "year" h) (headers.map toLowerStr) with
  | some b, some y => some (b, y)
  | _, _ => none

/-- Accumulator of the row scan: `best_url`, `max_year`, `found_name`. -/
structure ScanState where
  best_url : Option String
  max_year : Nat
  found_name : String
deriving Repr, DecidableEq

/-- Initial accumulator (`best_url = None`, `max_year = 0`, `found_name = ""`). -/
def initState : ScanState := ⟨none, 0, ""⟩

/-- The body of the row loop (`document_hunter.py` lines 111-148): skip rows
with too few cells, rows whose basin text lacks the identifier
(case-insensitive), rows whose year text has no `\d{4}` match, and rows whose
basin cell has no anchor with a truthy `href`; otherwise update the
accumulator when `year >= max_year`. -/
def rowStep (identifier : String) (bIdx yIdx : Nat) (st : ScanState) (row : Row) : ScanState :=
  if row.cells.length ≤ max bIdx yIdx then st
  else if strIn (toLowerStr identifier) (toLowerStr (row.cells.getD bIdx default).text) then
    match search4 (row.cells.getD yIdx default).text with
    | none => st
    | some year =>
      match (row.cells.getD bIdx default).firstLink with
      | none => st
      | some a =>
        match a.href with
        | none => st
        | some h =>
          if h = "" then st
          else if st.max_year ≤ year then
            ⟨some (DOMAIN ++ h), year, (row.cells.getD bIdx default).text⟩
          else st
  else st

/-- The whole scan over the filtered rows. -/
def scanRows (identifier : String) (bIdx yIdx : Nat) (rows : List Row) : ScanState :=
  rows.foldl (rowStep identifier bIdx yIdx) initState

/-- `_find_basin_page`: timeout on the initial table load propagates as an
error; header-mapping failure returns `(None, 0, "")`; otherwise the filtered
rows are scanned. -/
def findBasinPage (env : ListingEnv) (identifier : String) :
    Except QueryError (Option String × Nat × String) :=
  match env.load with
  | none => .error .tableTimeout
  | some snap =>
    match mapHeaders snap.headers with
    | none => .ok (none, 0, "")
    | some (bIdx, yIdx) =>
      let st := scanRows identifier bIdx yIdx env.filteredRows
      .ok (st.best_url, st.max_year, st.found_name)

/-- Strategy A predicate (`document_hunter.py` line 180): the string content
of the anchor contains the literal `WY_<year>` (case-sensitive) and `.pdf`
case-insensitively. -/
def stratAPred (year : Nat) (a : Anchor) : Bool :=
  strIn ("WY_" ++ toString year) a.text && strIn ".pdf" (toLowerStr a.text)

/-- Strategy A: `soup.find("a", string=lambda …)` — the first anchor in
document order whose string content matches. -/
def strategyA (year : Nat) (anchors : List Anchor) : Option Anchor :=
  anchors.find? (stratAPred year)

/-- The href filter of the Strategy-B fallback link
(`href=lambda x: x and "/document/" in x`): the attribute exists, is truthy,
and contains `/document/`. -/
def docHrefPred (a : Anchor) : Bool :=
  match a.href with
  | some h => !(h = "") && strIn "/document/" h
  | none => false

/-- `header.find_parent(tag)`: the nearest ancestor with the given tag. -/
def findParentTag (tag : String) (ancs : List Container) : Option Container :=
  ancs.find? (fun c => c.tag = tag)

/-- The Strategy-B container (`header.find_parent("div") or
header.find_parent("td")`): the nearest `div` ancestor when one exists,
otherwise the nearest `td` ancestor. -/
def stratBContainer (ancs : List Container) : Option Container :=
  match findParentTag "div" ancs with
  | some c => some c
  | none => findParentTag "td" ancs

/-- Strategy B (`document_hunter.py` lines 187-204), returning the raw href of
the matched fallback link (the code prefixes `DOMAIN`): needs the
"Annual Report PDF" text node, then the container, then the first anchor in it
with a truthy `/document/` href. -/
def strategyB (page : DetailPage) : Option String :=
  match page.annualAncestors with
  | none => none
  | some ancs =>
    match stratBContainer ancs with
    | none => none
    | some cont => (cont.anchors.find? docHrefPred).bind Anchor.href

/-- GSP link predicate (`document_hunter.py` line 209): string content
contains `"GSP"` and `"20"`. -/
def gspPred (a : Anchor) : Bool :=
  strIn "GSP" a.text && strIn "20" a.text

/-- Final-PDF predicate on the sub-page (`href=lambda x: x and
x.lower().endswith(".pdf")`). -/
def pdfHrefPred (a : Anchor) : Bool :=
  match a.href with
  | some h => !(h = "") && ".pdf".toList.isSuffixOf (toLowerStr h).toList
  | none => false

/-- Result of `_harvest_pdfs` plus an instrumentation counter:
`gspNavs` counts the sub-page navigations attempted (the `page.goto` inside
the `try` of the GSP phase runs exactly when the GSP anchor was found with a
truthy href). -/
structure HarvestDocs where
  annual_report_url : Option String
  gsp_url : Option String
  gspNavs : Nat
deriving Repr, DecidableEq

/-- The GSP phase (`document_hunter.py` lines 207-234): find the first
GSP-text anchor; when it has a truthy href, attempt the sub-page hop (a hop
failure is caught and leaves `gsp_url` at `None`); on the sub-page take the
first anchor whose href ends with `.pdf` case-insensitively. -/
def gspPhase (detail : DetailPage) (gspNav : Option SubPage) (annual : Option String) :
    HarvestDocs :=
  match detail.anchors.find? gspPred with
  | none => ⟨annual, none, 0⟩
  | some g =>
    match g.href with
    | none => ⟨annual, none, 0⟩
    | some h =>
      if h = "" then ⟨annual, none, 0⟩
      else
        match gspNav with
        | none => ⟨annual, none, 1⟩
        | some sub =>
          match (sub.anchors.find? pdfHrefPred).bind Anchor.href with
          | some h2 => ⟨annual, some (DOMAIN ++ h2), 1⟩
          | none => ⟨annual, none, 1⟩

/-- `_harvest_pdfs`: Strategy A first (a missing `href` attribute on the
Strategy-A match raises `KeyError`, uncaught in the source), Strategy B only
when Strategy A found nothing, then the GSP phase. -/
def harvestPdfs (detail : DetailPage) (gspNav : Option SubPage) (year : Nat) :
    Except QueryError HarvestDocs :=
  match strategyA year detail.anchors with
  | some a =>
    match a.href with
    | none => .error .keyError
    | some h => .ok (gspPhase detail gspNav (some (DOMAIN ++ h)))
  | none => .ok (gspPhase detail gspNav ((strategyB detail).map (DOMAIN ++ ·)))

/-- The value `get_basin_documents` returns when it returns normally: the
empty dictionary `{}` on "no basin match", or the merged dictionary with
exactly the four keys `basin_name`, `latest_year`, `annual_report_url`,
`gsp_url` (the four fields of the `found` constructor). -/
inductive QueryResult where
  | empty
  | found (basin_name : String) (latest_year : Nat)
      (annual_report_url : Option String) (gsp_url : Option String)
deriving Repr, DecidableEq

/-- `get_basin_documents` (`document_hunter.py` lines 26-67): locate the basin
row; on a null URL return `{}`; otherwise harvest the detail page and merge.
Errors pass through — the Python `try` has only a `finally`, no `except`. -/
def getBasinDocuments (env : QueryEnv) (identifier : String) :
    Except QueryError QueryResult :=
  match findBasinPage env.listing identifier with
  | .error e => .error e
  | .ok (none, _, _) => .ok .empty
  | .ok (some _, year, name) =>
    match harvestPdfs env.detail env.gspNav year with
    | .error e => .error e
    | .ok docs => .ok (.found name year docs.annual_report_url docs.gsp_url)

/-! Derived notions used to state the properties. -/

/-- A row is a valid candidate (spec: `CandidateRecord` validity): enough
cells, identifier occurs case-insensitively in the basin-cell text, the
year-cell text has a four-digit match, and the basin cell holds an anchor
with a truthy `href`. -/
def rowValid (identifier : String) (bIdx yIdx : Nat) (row : Row) : Bool :=
  decide (max bIdx yIdx < row.cells.length) &&
  strIn (toLowerStr identifier) (toLowerStr (row.cells.getD bIdx default).text) &&
  (search4 (row.cells.getD yIdx default).text).isSome &&
  (match (row.cells.getD bIdx default).firstLink with
   | some a =>
     match a.href with
     | some h => !(h = "")
     | none => false
   | none => false)

/-- The year the scan parses from a row (0 when the regex finds nothing). -/
def rowYear (yIdx : Nat) (row : Row) : Nat :=
  (search4 (row.cells.getD yIdx default).text).getD 0

/-- The raw href of the anchor in the basin cell of a row. -/
def rowHref (bIdx : Nat) (row : Row) : String :=
  match (row.cells.getD bIdx default).firstLink with
  | some a => a.href.getD ""
  | none => ""

/-- The basin display text of a row. -/
def rowName (bIdx : Nat) (row : Row) : String :=
  (row.cells.getD bIdx default).text

/-- An anchor occurring somewhere on the detail-page snapshot (either among
the top-level anchors or inside one of the recorded ancestor containers). -/
def anchorOnDetail (p : DetailPage) (a : Anchor) : Prop :=
  a ∈ p.anchors ∨ ∃ ancs, p.annualAncestors = some ancs ∧ ∃ c ∈ ancs, a ∈ c.anchors

/-- Modelled from the words of the claim (not from the source): the *nearest*
enclosing block-level container of the located text node — the first ancestor,
in nearest-first order, whose tag is `div` or `td`. -/
def nearestBlockContainer (ancs : List Container) : Option Container :=
  ancs.find? (fun c => c.tag = "div" || c.tag = "td")

/-- Modelled from the words of the claim (not from the source): Strategy B as
the claim states it, using the nearest enclosing block-level container. -/
def strategyBClaim (page : DetailPage) : Option String :=
  match page.annualAncestors with
  | none => none
  | some ancs =>
    match nearestBlockContainer ancs with
    | none => none
    | some cont => (cont.anchors.find? docHrefPred).bind Anchor.href

/-! Generic helper lemmas about first-match searches. -/

/-- A successful `find?` splits the list at the first match. -/
theorem find?_split {α : Type} {p : α → Bool} {l : List α} {a : α}
    (h : l.find? p = some a) :
    ∃ l₁ l₂, l = l₁ ++ a :: l₂ ∧ p a = true ∧ ∀ x ∈ l₁, p x = false := by
  induction l with
  | nil => simp [List.find?] at h
  | cons b t ih =>
    by_cases hb : p b = true
    · rw [List.find?_cons_of_pos _ hb] at h
      cases h
      exact ⟨[], t, rfl, hb, by simp⟩
    · rw [List.find?_cons_of_neg _ hb] at h
      obtain ⟨l₁, l₂, rfl, hpa, hall⟩ := ih h
      refine ⟨b :: l₁, l₂, rfl, hpa, ?_⟩
      intro x hx
      rcases List.mem_cons.mp hx with rfl | hx
      · simpa using hb
      · exact hall x hx

/-- Unfolding equation: head matches. -/
theorem firstIdx_cons_pos {p : String → Bool} {h : String} {t : List String}
    (hph : p h = true) : firstIdx p (h :: t) = some 0 := by
  simp [firstIdx, hph]

/-- Unfolding equation: head does not match. -/
theorem firstIdx_cons_neg {p : String → Bool} {h : String} {t : List String}
    (hph : p h = false) : firstIdx p (h :: t) = (firstIdx p t).map (· + 1) := by
  simp [firstIdx, hph]

/-- `firstIdx` (the `next(i for i, h in enumerate(…) if …)` idiom) returns the
index of the first element satisfying the predicate. -/
theorem firstIdx_some_iff {p : String → Bool} {l : List String} {i : Nat} :
    firstIdx p l = some i ↔
      i < l.length ∧ p (l.getD i "") = true ∧ ∀ j < i, p (l.getD j "") = false := by
  induction l generalizing i with
  | nil => simp [firstIdx]
  | cons h t ih =>
    cases hph : p h with
    | true =>
      rw [firstIdx_cons_pos hph]
      constructor
      · rintro h'
        injection h' with h'
        subst h'
        exact ⟨Nat.succ_pos _, by simpa using hph, by omega⟩
      · rintro ⟨hlen, hpi, hlt⟩
        cases i with
        | zero => rfl
        | succ j =>
          have h0 := hlt 0 (Nat.succ_pos j)
          rw [List.getD_cons_zero, hph] at h0
          cases h0
    | false =>
      rw [firstIdx_cons_neg hph]
      cases i with
      | zero =>
        simp only [Option.map_eq_some']
        constructor
        · rintro ⟨j, _, hj⟩
          omega
        · rintro ⟨_, hp0, _⟩
          rw [List.getD_cons_zero, hph] at hp0
          cases hp0
      | succ j =>
        constructor
        · intro h'
          obtain ⟨k, hk, hkeq⟩ := Option.map_eq_some'.mp h'
          have hj : k = j := by omega
          subst hj
          obtain ⟨h1, h2, h3⟩ := ih.mp hk
          refine ⟨by simpa using Nat.succ_lt_succ h1, by simpa using h2, ?_⟩
          intro m hm
          cases m with
          | zero => simpa using hph
          | succ m' => simpa using h3 m' (by omega)
        · rintro ⟨h1, h2, h3⟩
          have ht : firstIdx p t = some j := by
            refine ih.mpr ⟨by simpa using h1, by simpa using h2, ?_⟩
            intro m hm
            simpa using h3 (m + 1) (by omega)
          simp [ht]

/-- `firstIdx` fails exactly when no element satisfies the predicate. -/
theorem firstIdx_none_iff {p : String → Bool} {l : List String} :
    firstIdx p l = none ↔ ∀ x ∈ l, p x = false := by
  induction l with
  | nil => simp [firstIdx]
  | cons h t ih =>
    cases hph : p h with
    | true =>
      rw [firstIdx_cons_pos hph]
      simp only [List.mem_cons]
      constructor
      · intro h'
        cases h'
      · intro h'
        have := h' h (Or.inl rfl)
        rw [hph] at this
        cases this
    | false =>
      rw [firstIdx_cons_neg hph]
      simp only [Option.map_eq_none', List.mem_cons]
      constructor
      · intro h' x hx
        rcases hx with rfl | hx
        · exact hph
        · exact ih.mp h' x hx
      · intro h'
        exact ih.mpr fun x hx => h' x (Or.inr hx)

/-- Lower-casing the mapped header list is pointwise lower-casing. -/
theorem getD_map_toLower (l : List String) (j : Nat) :
    (l.map toLowerStr).getD j "" = toLowerStr (l.getD j "") := by
  induction l generalizing j with
  | nil => simp [toLowerStr]
  | cons h t ih =>
    cases j with
    | zero => simp
    | succ j' => simpa using ih j'

/-- The row-loop body equals: do nothing on an invalid row, otherwise update
the accumulator exactly when the parsed year is at least the tracked maximum. -/
theorem rowStep_eq (identifier : String) (bIdx yIdx : Nat) (st : ScanState) (row : Row) :
    rowStep identifier bIdx yIdx st row =
      if rowValid identifier bIdx yIdx row = true then
        (if st.max_year ≤ rowYear yIdx row then
          ⟨some (DOMAIN ++ rowHref bIdx row), rowYear yIdx row, rowName bIdx row⟩
         else st)
      else st := by
  unfold rowStep
  split
  next h1 =>
    have hv : rowValid identifier bIdx yIdx row = false := by
      have h1' : ¬ (max bIdx yIdx < row.cells.length) := by omega
      simp [rowValid, h1']
    simp [hv]
  next h1 =>
    have h1' : max bIdx yIdx < row.cells.length := by omega
    split
    next h2 =>
      split
      next h3 =>
        have hv : rowValid identifier bIdx yIdx row = false := by
          unfold rowValid
          rw [h3]
          simp only [Option.isSome_none, Bool.and_false, Bool.false_and]
        simp [hv]
      next yr h3 =>
        split
        next h4 =>
          have hv : rowValid identifier bIdx yIdx row = false := by
            unfold rowValid
            rw [h4]
            simp only [Bool.and_false]
          simp [hv]
        next a h4 =>
          split
          next h5 =>
            have hv : rowValid identifier bIdx yIdx row = false := by
              unfold rowValid
              simp only [h4, h5, Bool.and_false]
            simp [hv]
          next hr h5 =>
            split
            next h6 =>
              have hv : rowValid identifier bIdx yIdx row = false := by
                unfold rowValid
                simp only [h4, h5, h6, decide_True, Bool.not_true, Bool.and_false]
              simp [hv]
            next h6 =>
              have hv : rowValid identifier bIdx yIdx row = true := by
                unfold rowValid
                simp only [Bool.and_eq_true, decide_eq_true_eq]
                refine ⟨⟨⟨h1', h2⟩, ?_⟩, ?_⟩
                · rw [h3]
                  rfl
                · simp only [h4, h5]
                  simp [h6]
              have hyear : rowYear yIdx row = yr := by
                unfold rowYear
                rw [h3]
                rfl
              have hhref : rowHref bIdx row = hr := by
                unfold rowHref
                simp only [h4, h5, Option.getD_some]
              have hname : rowName bIdx row = (row.cells.getD bIdx default).text := rfl
              simp [hv, hyear, hhref, hname]
    next h2 =>
      have hv : rowValid identifier bIdx yIdx row = false := by
        unfold rowValid
        have h2' : strIn (toLowerStr identifier) (toLowerStr (row.cells.getD bIdx default).text) = false :=
          Bool.eq_false_iff.mpr h2
        rw [h2']
        simp only [Bool.and_false, Bool.false_and]
      simp [hv]

/-- An invalid row leaves the accumulator unchanged. -/
theorem rowStep_invalid {identifier : String} {bIdx yIdx : Nat} {row : Row}
    (h : rowValid identifier bIdx yIdx row = false) (st : ScanState) :
    rowStep identifier bIdx yIdx st row = st := by
  rw [rowStep_eq]
  simp [h]

/-- A scan over invalid rows only keeps the accumulator. -/
theorem foldl_invalid (identifier : String) (bIdx yIdx : Nat) (rows : List Row) (st : ScanState)
    (h : ∀ r ∈ rows, rowValid identifier bIdx yIdx r = false) :
    rows.foldl (rowStep identifier bIdx yIdx) st = st := by
  induction rows generalizing st with
  | nil => rfl
  | cons r t ih =>
    rw [List.foldl_cons, rowStep_invalid (h r (List.mem_cons_self r t)) st]
    exact ih st fun r' hr' => h r' (List.mem_cons_of_mem _ hr')

/-- C4: for every sequence of header-cell texts containing "basin" in some
cell and "year" in some cell (case-insensitively), the header mapper resolves
each role to the index of the first (leftmost) matching cell; if either
substring is absent from all cells, the mapper signals the mapping failure
(`mapHeaders … = none`, the caught `StopIteration` of the source) and the
whole query is aborted with the empty result. -/
theorem header_mapper_first_match (headers : List String) :
    ((∃ h ∈ headers, strIn "basin" (toLowerStr h) = true) →
     (∃ h ∈ headers, strIn "year" (toLowerStr h) = true) →
       ∃ b y, mapHeaders headers = some (b, y) ∧
         b < headers.length ∧ strIn "basin" (toLowerStr (headers.getD b "")) = true ∧
         (∀ j < b, strIn "basin" (toLowerStr (headers.getD j "")) = false) ∧
         y < headers.length ∧ strIn "year" (toLowerStr (headers.getD y "")) = true ∧
         (∀ j < y, strIn "year" (toLowerStr (headers.getD j "")) = false)) ∧
    (((∀ h ∈ headers, strIn "basin" (toLowerStr h) = false) ∨
      (∀ h ∈ headers, strIn "year" (toLowerStr h) = false)) →
       mapHeaders headers = none ∧
       ∀ env : QueryEnv, ∀ identifier : String, ∀ snap : ListingSnapshot,
         env.listing.load = some snap → snap.headers = headers →
         getBasinDocuments env identifier = .ok .empty) := by
  constructor
  · intro hb hy
    have hb' : ¬ (firstIdx (fun h => strIn "basin" h) (headers.map toLowerStr) = none) := by
      rw [firstIdx_none_iff]
      push_neg
      obtain ⟨h, hmem, hh⟩ := hb
      exact ⟨toLowerStr h, List.mem_map_of_mem _ hmem, by simp [hh]⟩
    have hy' : ¬ (firstIdx (fun h => strIn "year" h) (headers.map toLowerStr) = none) := by
      rw [firstIdx_none_iff]
      push_neg
      obtain ⟨h, hmem, hh⟩ := hy
      exact ⟨toLowerStr h, List.mem_map_of_mem _ hmem, by simp [hh]⟩
    obtain ⟨b, hbidx⟩ := Option.ne_none_iff_exists'.mp hb'
    obtain ⟨y, hyidx⟩ := Option.ne_none_iff_exists'.mp hy'
    obtain ⟨hblen, hbhit, hbmin⟩ := firstIdx_some_iff.mp hbidx
    obtain ⟨hylen, hyhit, hymin⟩ := firstIdx_some_iff.mp hyidx
    refine ⟨b, y, ?_, ?_, ?_, ?_, ?_, ?_, ?_⟩
    · unfold mapHeaders
      rw [hbidx, hyidx]
    · simpa [List.length_map] using hblen
    · rw [← getD_map_toLower]
      exact hbhit
    · intro j hj
      rw [← getD_map_toLower]
      exact hbmin j hj
    · simpa [List.length_map] using hylen
    · rw [← getD_map_toLower]
      exact hyhit
    · intro j hj
      rw [← getD_map_toLower]
      exact hymin j hj
  · intro habs
    have hnone : mapHeaders headers = none := by
      unfold mapHeaders
      rcases habs with h | h
      · have : firstIdx (fun h => strIn "basin" h) (headers.map toLowerStr) = none := by
          rw [firstIdx_none_iff]
          intro x hx
          obtain ⟨x₀, hx₀, rfl⟩ := List.mem_map.mp hx
          exact h x₀ hx₀
        rw [this]
      · have : firstIdx (fun h => strIn "year" h) (headers.map toLowerStr) = none := by
          rw [firstIdx_none_iff]
          intro x hx
          obtain ⟨x₀, hx₀, rfl⟩ := List.mem_map.mp hx
          exact h x₀ hx₀
        rw [this]
        cases firstIdx (fun h => strIn "basin" h) (headers.map toLowerStr) <;> rfl
    refine ⟨hnone, ?_⟩
    intro env identifier snap hload hsnap
    subst hsnap
    unfold getBasinDocuments findBasinPage
    rw [hload]
    simp only [hnone]

/-- Witness for C4 at concrete inputs: headers with "year" left of "basin"
map to indices (1, 0); headers lacking both make the query return `{}`. -/
theorem header_mapper_first_match_witness :
    (∃ b y, mapHeaders ["Year", "Basin Name"] = some (b, y) ∧
       b < (["Year", "Basin Name"] : List String).length ∧
       strIn "basin" (toLowerStr ((["Year", "Basin Name"] : List String).getD b "")) = true ∧
       (∀ j < b, strIn "basin" (toLowerStr ((["Year", "Basin Name"] : List String).getD j "")) = false) ∧
       y < (["Year", "Basin Name"] : List String).length ∧
       strIn "year" (toLowerStr ((["Year", "Basin Name"] : List String).getD y "")) = true ∧
       (∀ j < y, strIn "year" (toLowerStr ((["Year", "Basin Name"] : List String).getD j "")) = false)) ∧
    getBasinDocuments ⟨⟨some ⟨["Status"]⟩, []⟩, ⟨[], none⟩, none⟩ "q" = .ok .empty :=
  ⟨(header_mapper_first_match ["Year", "Basin Name"]).1
      ⟨"Basin Name", by decide, by decide⟩ ⟨"Year", by decide, by decide⟩,
    ((header_mapper_first_match ["Status"]).2 (Or.inl (by decide))).2
      ⟨⟨some ⟨["Status"]⟩, []⟩, ⟨[], none⟩, none⟩ "q" ⟨["Status"]⟩ rfl rfl⟩

/-- The four-digit search succeeds exactly at the leftmost position where a
window of four digits starts. -/
theorem search4Chars_some_iff {cs : List Char} {y : Nat} :
    search4Chars cs = some y ↔
      ∃ k, fourAt (cs.drop k) = some y ∧ ∀ j < k, fourAt (cs.drop j) = none := by
  induction cs with
  | nil =>
    constructor
    · intro h
      simp [search4Chars] at h
    · rintro ⟨k, hk, _⟩
      rw [List.drop_nil] at hk
      simp [fourAt] at hk
  | cons c cs ih =>
    cases hf : fourAt (c :: cs) with
    | some v =>
      constructor
      · intro h
        simp only [search4Chars, hf] at h
        exact ⟨0, by simpa [hf] using h, by omega⟩
      · rintro ⟨k, hk, hj⟩
        cases k with
        | zero =>
          rw [List.drop_zero] at hk
          simp only [search4Chars, hf]
          rw [hf] at hk
          injection hk with hk
          rw [hk]
        | succ k' =>
          have h0 := hj 0 (Nat.succ_pos k')
          rw [List.drop_zero, hf] at h0
          cases h0
    | none =>
      constructor
      · intro h
        simp only [search4Chars, hf] at h
        obtain ⟨k, hk, hj⟩ := ih.mp h
        refine ⟨k + 1, by simpa using hk, ?_⟩
        intro j hji
        cases j with
        | zero => simpa using hf
        | succ j' => simpa using hj j' (by omega)
      · rintro ⟨k, hk, hj⟩
        cases k with
        | zero =>
          rw [List.drop_zero, hf] at hk
          cases hk
        | succ k' =>
          simp only [search4Chars, hf]
          refine ih.mpr ⟨k', by simpa using hk, ?_⟩
          intro j hji
          simpa using hj (j + 1) (by omega)

/-- The four-digit search fails exactly when no position starts four digits. -/
theorem search4Chars_none_iff {cs : List Char} :
    search4Chars cs = none ↔ ∀ k, fourAt (cs.drop k) = none := by
  induction cs with
  | nil =>
    simp [search4Chars, fourAt]
  | cons c cs ih =>
    cases hf : fourAt (c :: cs) with
    | some v =>
      constructor
      · intro h
        simp only [search4Chars, hf] at h
        cases h
      · intro h
        have h0 := h 0
        rw [List.drop_zero, hf] at h0
        cases h0
    | none =>
      constructor
      · intro h k
        simp only [search4Chars, hf] at h
        cases k with
        | zero => simpa using hf
        | succ k' => simpa using ih.mp h k'
      · intro h
        simp only [search4Chars, hf]
        exact ih.mpr fun k => by simpa using h (k + 1)

/-- C6: for every year-cell text, the parsed year is the value of the
four-digit window at the leftmost position admitting one (so years embedded
in surrounding text are accepted); a text with no four-digit window parses to
`none`, and such a row is excluded as a candidate — the scan state is
unchanged and the row is not valid. -/
theorem year_parsing_leftmost (s : String) :
    (∀ y, search4 s = some y →
       ∃ k, fourAt (s.toList.drop k) = some y ∧ ∀ j < k, fourAt (s.toList.drop j) = none) ∧
    (search4 s = none → ∀ k, fourAt (s.toList.drop k) = none) ∧
    (∀ identifier bIdx yIdx (st : ScanState) (row : Row),
       search4 (row.cells.getD yIdx default).text = none →
       rowStep identifier bIdx yIdx st row = st ∧
       rowValid identifier bIdx yIdx row = false) := by
  refine ⟨?_, ?_, ?_⟩
  · intro y h
    exact search4Chars_some_iff.mp h
  · intro h
    exact search4Chars_none_iff.mp h
  · intro identifier bIdx yIdx st row hnone
    constructor
    · rw [rowStep_eq]
      have hv : rowValid identifier bIdx yIdx row = false := by
        unfold rowValid
        rw [hnone]
        simp only [Option.isSome_none, Bool.and_false, Bool.false_and]
      simp [hv]
    · unfold rowValid
      rw [hnone]
      simp only [Option.isSome_none, Bool.and_false, Bool.false_and]

/-- Witness for C6 at concrete inputs: "2024 (Draft)" parses to 2024 found at
the leftmost window, and a row with year text "TBD" is skipped. -/
theorem year_parsing_leftmost_witness :
    (∃ k, fourAt (("2024 (Draft)").toList.drop k) = some 2024 ∧
       ∀ j < k, fourAt (("2024 (Draft)").toList.drop j) = none) ∧
    rowStep "b" 0 1 initState ⟨[⟨"b", some ⟨"b", some "/x"⟩⟩, ⟨"TBD", none⟩]⟩ = initState :=
  ⟨(year_parsing_leftmost "2024 (Draft)").1 2024 (by decide),
    ((year_parsing_leftmost "TBD").2.2 "b" 0 1 initState
      ⟨[⟨"b", some ⟨"b", some "/x"⟩⟩, ⟨"TBD", none⟩]⟩ (by decide)).1⟩

/-- C1: for every scanned sequence of table rows containing at least one
valid candidate, the scan returns the data of a valid row whose parsed year
is maximal among valid rows, and that row is the last-scanned row attaining
the maximum (every valid row after it in scan order has a strictly smaller
year) — the last-write-wins tie-break of the non-strict `>=` update. -/
theorem basin_locator_latest_row (identifier : String) (bIdx yIdx : Nat) (rows : List Row)
    (hex : ∃ r ∈ rows, rowValid identifier bIdx yIdx r = true) :
    ∃ l₁ r l₂, rows = l₁ ++ r :: l₂ ∧ rowValid identifier bIdx yIdx r = true ∧
      scanRows identifier bIdx yIdx rows =
        ⟨some (DOMAIN ++ rowHref bIdx r), rowYear yIdx r, rowName bIdx r⟩ ∧
      (∀ r' ∈ rows, rowValid identifier bIdx yIdx r' = true →
        rowYear yIdx r' ≤ rowYear yIdx r) ∧
      (∀ r' ∈ l₂, rowValid identifier bIdx yIdx r' = true →
        rowYear yIdx r' < rowYear yIdx r) := by
  induction rows using List.reverseRecOn with
  | nil => simp at hex
  | append_singleton t r ih =>
    have hscan_app : scanRows identifier bIdx yIdx (t ++ [r]) =
        rowStep identifier bIdx yIdx (scanRows identifier bIdx yIdx t) r :=
      List.foldl_concat _ _ _ _
    cases hv : rowValid identifier bIdx yIdx r with
    | true =>
      by_cases hl : ∃ r' ∈ t, rowValid identifier bIdx yIdx r' = true
      · obtain ⟨l₁, r₀, l₂, hdec, hv₀, hscan, hmax, hlast⟩ := ih hl
        by_cases hy : rowYear yIdx r₀ ≤ rowYear yIdx r
        · refine ⟨t, r, [], by simp, hv, ?_, ?_, by simp⟩
          · rw [hscan_app, hscan, rowStep_eq]
            simp only [hv, if_true]
            rw [if_pos hy]
          · intro r' hr' hval
            rcases List.mem_append.mp hr' with h | h
            · exact le_trans (hmax r' h hval) hy
            · rw [List.mem_singleton.mp h]
        · push_neg at hy
          refine ⟨l₁, r₀, l₂ ++ [r], by rw [hdec, List.append_assoc, List.cons_append], hv₀, ?_, ?_, ?_⟩
          · rw [hscan_app, hscan, rowStep_eq]
            simp only [hv, if_true]
            rw [if_neg (by simpa using Nat.not_le.mpr hy)]
          · intro r' hr' hval
            rcases List.mem_append.mp hr' with h | h
            · exact hmax r' h hval
            · rw [List.mem_singleton.mp h]
              omega
          · intro r' hr' hval
            rcases List.mem_append.mp hr' with h | h
            · exact hlast r' h hval
            · rw [List.mem_singleton.mp h]
              omega
      · push_neg at hl
        have hinv : ∀ r' ∈ t, rowValid identifier bIdx yIdx r' = false := by
          intro r' hr'
          have := hl r' hr'
          exact Bool.eq_false_iff.mpr this
        have hfold : scanRows identifier bIdx yIdx t = initState :=
          foldl_invalid identifier bIdx yIdx t initState hinv
        refine ⟨t, r, [], rfl, hv, ?_, ?_, by simp⟩
        · rw [hscan_app, hfold, rowStep_eq]
          simp only [hv, if_true, initState]
          rw [if_pos (Nat.zero_le _)]
        · intro r' hr' hval
          rcases List.mem_append.mp hr' with h | h
          · rw [hinv r' h] at hval
            cases hval
          · rw [List.mem_singleton.mp h]
    | false =>
      have hl : ∃ r' ∈ t, rowValid identifier bIdx yIdx r' = true := by
        obtain ⟨r', hr', hval⟩ := hex
        rcases List.mem_append.mp hr' with h | h
        · exact ⟨r', h, hval⟩
        · rw [List.mem_singleton.mp h] at hval
          rw [hv] at hval
          cases hval
      obtain ⟨l₁, r₀, l₂, hdec, hv₀, hscan, hmax, hlast⟩ := ih hl
      refine ⟨l₁, r₀, l₂ ++ [r], by rw [hdec, List.append_assoc, List.cons_append], hv₀, ?_, ?_, ?_⟩
      · rw [hscan_app, rowStep_invalid hv _, hscan]
      · intro r' hr' hval
        rcases List.mem_append.mp hr' with h | h
        · exact hmax r' h hval
        · rw [List.mem_singleton.mp h] at hval
          rw [hv] at hval
          cases hval
      · intro r' hr' hval
        rcases List.mem_append.mp hr' with h | h
        · exact hlast r' h hval
        · rw [List.mem_singleton.mp h] at hval
          rw [hv] at hval
          cases hval

/-- Witness for C1: two valid rows for the same basin, years 2023 and 2024 —
the 2024 row is selected (and, the list having one maximal row, it is last). -/
theorem basin_locator_latest_row_witness :
    ∃ l₁ r l₂,
      ([⟨[⟨"Basin A", some ⟨"a", some "/r/1"⟩⟩, ⟨"2023", none⟩]⟩,
        ⟨[⟨"Basin A", some ⟨"a", some "/r/2"⟩⟩, ⟨"2024 (Draft)", none⟩]⟩] : List Row) =
        l₁ ++ r :: l₂ ∧
      rowValid "basin a" 0 1 r = true ∧
      scanRows "basin a" 0 1
          [⟨[⟨"Basin A", some ⟨"a", some "/r/1"⟩⟩, ⟨"2023", none⟩]⟩,
           ⟨[⟨"Basin A", some ⟨"a", some "/r/2"⟩⟩, ⟨"2024 (Draft)", none⟩]⟩] =
        ⟨some (DOMAIN ++ rowHref 0 r), rowYear 1 r, rowName 0 r⟩ ∧
      (∀ r' ∈ ([⟨[⟨"Basin A", some ⟨"a", some "/r/1"⟩⟩, ⟨"2023", none⟩]⟩,
                ⟨[⟨"Basin A", some ⟨"a", some "/r/2"⟩⟩, ⟨"2024 (Draft)", none⟩]⟩] : List Row),
        rowValid "basin a" 0 1 r' = true → rowYear 1 r' ≤ rowYear 1 r) ∧
      (∀ r' ∈ l₂, rowValid "basin a" 0 1 r' = true → rowYear 1 r' < rowYear 1 r) :=
  basin_locator_latest_row "basin a" 0 1
    [⟨[⟨"Basin A", some ⟨"a", some "/r/1"⟩⟩, ⟨"2023", none⟩]⟩,
     ⟨[⟨"Basin A", some ⟨"a", some "/r/2"⟩⟩, ⟨"2024 (Draft)", none⟩]⟩]
    ⟨⟨[⟨"Basin A", some ⟨"a", some "/r/2"⟩⟩, ⟨"2024 (Draft)", none⟩]⟩, by decide, by decide⟩

/-- C7: when the filtered table holds no valid candidate row, the locator
returns a null URL, year 0 and an empty name — without raising — and the
entry point then returns the empty result object. -/
theorem no_candidate_empty_result (env : QueryEnv) (identifier : String)
    (snap : ListingSnapshot) (bIdx yIdx : Nat)
    (hload : env.listing.load = some snap)
    (hmap : mapHeaders snap.headers = some (bIdx, yIdx))
    (hnone : ∀ r ∈ env.listing.filteredRows, rowValid identifier bIdx yIdx r = false) :
    findBasinPage env.listing identifier = .ok (none, 0, "") ∧
    getBasinDocuments env identifier = .ok .empty := by
  have hscan : scanRows identifier bIdx yIdx env.listing.filteredRows = initState :=
    foldl_invalid identifier bIdx yIdx _ initState hnone
  have hfind : findBasinPage env.listing identifier = .ok (none, 0, "") := by
    unfold findBasinPage
    rw [hload]
    simp only [hmap, hscan, initState]
  refine ⟨hfind, ?_⟩
  unfold getBasinDocuments
  rw [hfind]

/-- Witness for C7: a one-row table whose basin text does not contain the
queried identifier yields the empty result. -/
theorem no_candidate_empty_result_witness :
    findBasinPage ⟨some ⟨["Basin", "Year"]⟩,
        [⟨[⟨"Other Basin", some ⟨"x", some "/r/9"⟩⟩, ⟨"2021", none⟩]⟩]⟩ "santa cruz" =
      .ok (none, 0, "") ∧
    getBasinDocuments ⟨⟨some ⟨["Basin", "Year"]⟩,
        [⟨[⟨"Other Basin", some ⟨"x", some "/r/9"⟩⟩, ⟨"2021", none⟩]⟩]⟩, ⟨[], none⟩, none⟩
      "santa cruz" = .ok .empty :=
  no_candidate_empty_result
    ⟨⟨some ⟨["Basin", "Year"]⟩,
      [⟨[⟨"Other Basin", some ⟨"x", some "/r/9"⟩⟩, ⟨"2021", none⟩]⟩]⟩, ⟨[], none⟩, none⟩
    "santa cruz" ⟨["Basin", "Year"]⟩ 0 1 rfl (by decide) (by decide)

/-- C3 counterexample: on an initial listing-table load timeout the entry
point does *not* return the empty dictionary — the error propagates to the
caller (the source has a `try`/`finally` with no `except` clause). -/
theorem fatal_timeout_counterexample :
    getBasinDocuments ⟨⟨none, []⟩, ⟨[], none⟩, none⟩ "Basin A" = .error .tableTimeout ∧
    getBasinDocuments ⟨⟨none, []⟩, ⟨[], none⟩, none⟩ "Basin A" ≠ .ok .empty := by
  constructor
  · rfl
  · intro h
    exact Except.noConfusion h

/-- C3 amended: a header-role mapping failure makes `getBasinDocuments`
return the empty result dictionary with no exception; an initial
listing-table load timeout, however, escapes to the caller as an error. -/
theorem fatal_handling_amended (env : QueryEnv) (identifier : String) :
    (∀ snap, env.listing.load = some snap → mapHeaders snap.headers = none →
       getBasinDocuments env identifier = .ok .empty) ∧
    (env.listing.load = none →
       getBasinDocuments env identifier = .error .tableTimeout) := by
  constructor
  · intro snap hload hmap
    unfold getBasinDocuments findBasinPage
    rw [hload]
    simp only [hmap]
  · intro hload
    unfold getBasinDocuments findBasinPage
    rw [hload]

/-- Witness for C3 amended: a concrete header-mapping failure returns `{}`;
a concrete timeout environment returns the error. -/
theorem fatal_handling_amended_witness :
    getBasinDocuments ⟨⟨some ⟨["Status", "Agency"]⟩, []⟩, ⟨[], none⟩, none⟩ "b" = .ok .empty ∧
    getBasinDocuments ⟨⟨none, []⟩, ⟨[], none⟩, none⟩ "b" = .error .tableTimeout :=
  ⟨(fatal_handling_amended ⟨⟨some ⟨["Status", "Agency"]⟩, []⟩, ⟨[], none⟩, none⟩ "b").1
      ⟨["Status", "Agency"]⟩ rfl (by decide),
    (fatal_handling_amended ⟨⟨none, []⟩, ⟨[], none⟩, none⟩ "b").2 rfl⟩

/-- The GSP phase never changes the annual-report component. -/
theorem gspPhase_annual (detail : DetailPage) (gspNav : Option SubPage) (annual : Option String) :
    (gspPhase detail gspNav annual).annual_report_url = annual := by
  unfold gspPhase
  repeat' split
  all_goals rfl

/-- With a failed hop the GSP phase yields a null `gsp_url`. -/
theorem gspPhase_gsp_none (detail : DetailPage) (annual : Option String) :
    (gspPhase detail none annual).gsp_url = none := by
  unfold gspPhase
  repeat' split
  all_goals first | rfl | contradiction

/-- C2: Strategy A returns the first anchor (in document order) whose string
content contains both `WY_<year>` and, case-insensitively, `.pdf`; whenever
such an anchor exists Strategy A succeeds, and when its match carries an
`href` the harvested `annual_report_url` is that match made absolute —
Strategy B is never consulted, so when both strategies would match,
Strategy A wins. -/
theorem pdf_resolver_strategyA_first (year : Nat) (detail : DetailPage) (gspNav : Option SubPage) :
    (∀ a, strategyA year detail.anchors = some a →
       stratAPred year a = true ∧
       ∃ l₁ l₂, detail.anchors = l₁ ++ a :: l₂ ∧ ∀ x ∈ l₁, stratAPred year x = false) ∧
    ((∃ a ∈ detail.anchors, stratAPred year a = true) →
       ∃ a, strategyA year detail.anchors = some a) ∧
    (∀ a h, strategyA year detail.anchors = some a → a.href = some h →
       ∃ docs, harvestPdfs detail gspNav year = .ok docs ∧
         docs.annual_report_url = some (DOMAIN ++ h)) := by
  refine ⟨?_, ?_, ?_⟩
  · intro a hfind
    refine ⟨List.find?_some hfind, ?_⟩
    obtain ⟨l₁, l₂, hdec, _, hall⟩ := find?_split hfind
    exact ⟨l₁, l₂, hdec, hall⟩
  · intro ⟨a, hmem, hpred⟩
    cases hA : strategyA year detail.anchors with
    | some a' => exact ⟨a', rfl⟩
    | none =>
      have := List.find?_eq_none.mp hA a hmem
      rw [hpred] at this
      exact absurd rfl this
  · intro a h hA hh
    refine ⟨gspPhase detail gspNav (some (DOMAIN ++ h)), ?_, gspPhase_annual _ _ _⟩
    unfold harvestPdfs
    simp only [hA, hh]

/-- Witness for C2: a page on which both strategies would match — the result
is the Strategy-A link, not the Strategy-B one. -/
theorem pdf_resolver_strategyA_first_witness :
    ∃ docs,
      harvestPdfs
          ⟨[⟨"other", some "/n"⟩, ⟨"3-001_WY_2024.pdf", some "/document/555"⟩],
            some [⟨"div", [⟨"z", some "/document/9"⟩]⟩]⟩ none 2024 = .ok docs ∧
      docs.annual_report_url = some (DOMAIN ++ "/document/555") :=
  (pdf_resolver_strategyA_first 2024
      ⟨[⟨"other", some "/n"⟩, ⟨"3-001_WY_2024.pdf", some "/document/555"⟩],
        some [⟨"div", [⟨"z", some "/document/9"⟩]⟩]⟩ none).2.2
    ⟨"3-001_WY_2024.pdf", some "/document/555"⟩ "/document/555" (by decide) (by decide)

/-- C5: a navigation or parse failure during the GSP sub-page hop leaves the
annual-report component exactly as any other hop outcome would (the hop
cannot change it and cannot raise), and yields a null `gsp_url`. -/
theorem gsp_failure_frame (detail : DetailPage) (year : Nat) (gspNav : Option SubPage) :
    Except.map HarvestDocs.annual_report_url (harvestPdfs detail none year) =
      Except.map HarvestDocs.annual_report_url (harvestPdfs detail gspNav year) ∧
    (∀ docs, harvestPdfs detail none year = .ok docs → docs.gsp_url = none) := by
  constructor
  · unfold harvestPdfs
    cases hA : strategyA year detail.anchors with
    | some a =>
      cases hh : a.href with
      | none => simp [hA, hh, Except.map]
      | some h => simp [hA, hh, Except.map, gspPhase_annual]
    | none => simp [hA, Except.map, gspPhase_annual]
  · intro docs h
    unfold harvestPdfs at h
    cases hA : strategyA year detail.anchors with
    | some a =>
      cases hh : a.href with
      | none =>
        simp only [hA, hh] at h
        exact Except.noConfusion h
      | some hr =>
        simp only [hA, hh] at h
        injection h with h
        rw [← h]
        exact gspPhase_gsp_none detail _
    | none =>
      simp only [hA] at h
      injection h with h
      rw [← h]
      exact gspPhase_gsp_none detail _

/-- Witness for C5: with the hop failing on a page holding a GSP link, the
annual URL is the same as with a reachable sub-page, and `gsp_url` is null. -/
theorem gsp_failure_frame_witness :
    Except.map HarvestDocs.annual_report_url
        (harvestPdfs ⟨[⟨"3-001_WY_2024.pdf", some "/d/1"⟩, ⟨"GSP 2022", some "/gsp"⟩], none⟩
          none 2024) =
      Except.map HarvestDocs.annual_report_url
        (harvestPdfs ⟨[⟨"3-001_WY_2024.pdf", some "/d/1"⟩, ⟨"GSP 2022", some "/gsp"⟩], none⟩
          (some ⟨[⟨"plan", some "/plan.pdf"⟩]⟩) 2024) ∧
    (harvestPdfs ⟨[⟨"3-001_WY_2024.pdf", some "/d/1"⟩, ⟨"GSP 2022", some "/gsp"⟩], none⟩
        none 2024 =
      .ok ⟨some (DOMAIN ++ "/d/1"), none, 1⟩ →
      (⟨some (DOMAIN ++ "/d/1"), none, 1⟩ : HarvestDocs).gsp_url = none) :=
  ⟨(gsp_failure_frame ⟨[⟨"3-001_WY_2024.pdf", some "/d/1"⟩, ⟨"GSP 2022", some "/gsp"⟩], none⟩
      2024 (some ⟨[⟨"plan", some "/plan.pdf"⟩]⟩)).1,
    (gsp_failure_frame ⟨[⟨"3-001_WY_2024.pdf", some "/d/1"⟩, ⟨"GSP 2022", some "/gsp"⟩], none⟩
      2024 none).2 ⟨some (DOMAIN ++ "/d/1"), none, 1⟩⟩

/-- C9: when the first GSP-text anchor carries no `href` attribute, the GSP
phase yields a null `gsp_url`, attempts no sub-page navigation, and raises
nothing (the source guards with a falsy `get` before entering the hop). -/
theorem gsp_missing_href_safe (detail : DetailPage) (gspNav : Option SubPage)
    (a : Anchor) (hfind : detail.anchors.find? gspPred = some a) (hhref : a.href = none) :
    (∀ annual, gspPhase detail gspNav annual = ⟨annual, none, 0⟩) ∧
    (∀ year docs, harvestPdfs detail gspNav year = .ok docs →
       docs.gsp_url = none ∧ docs.gspNavs = 0) := by
  have hphase : ∀ annual, gspPhase detail gspNav annual = ⟨annual, none, 0⟩ := by
    intro annual
    unfold gspPhase
    simp only [hfind, hhref]
  refine ⟨hphase, ?_⟩
  intro year docs h
  unfold harvestPdfs at h
  cases hA : strategyA year detail.anchors with
  | some a' =>
    cases hh : a'.href with
    | none =>
      simp only [hA, hh] at h
      exact Except.noConfusion h
    | some hr =>
      simp only [hA, hh] at h
      injection h with h
      rw [← h, hphase]
      exact ⟨rfl, rfl⟩
  | none =>
    simp only [hA] at h
    injection h with h
    rw [← h, hphase]
    exact ⟨rfl, rfl⟩

/-- Witness for C9: a page whose only GSP-text anchor has no href — the
phase result keeps the annual value, with null GSP and zero navigations. -/
theorem gsp_missing_href_safe_witness :
    gspPhase ⟨[⟨"GSP 2022", none⟩], none⟩ none (some "kept") = ⟨some "kept", none, 0⟩ :=
  (gsp_missing_href_safe ⟨[⟨"GSP 2022", none⟩], none⟩ none ⟨"GSP 2022", none⟩
      (by decide) rfl).1 (some "kept")

/-- The container the code picks is one of the ancestors. -/
theorem stratBContainer_mem {ancs : List Container} {cont : Container}
    (h : stratBContainer ancs = some cont) : cont ∈ ancs := by
  unfold stratBContainer at h
  cases hd : findParentTag "div" ancs with
  | some c =>
    rw [hd] at h
    injection h with h
    rw [← h]
    exact List.mem_of_find?_eq_some hd
  | none =>
    rw [hd] at h
    exact List.mem_of_find?_eq_some h

/-- C8 counterexample: with the "Annual Report PDF" text node sitting in a
`td` that is itself inside a `div` (realizable as
`<div><a href="/document/b">…</a><table>…<td>Annual Report PDF(s)
<a href="/document/a">…</a></td>…</table></div>`), the code resolves
through the `div` — `find_parent("div")` wins over the *nearer* `td` — while
the claim's nearest enclosing block-level container is the `td`; the two
prescribe different URLs. -/
theorem strategyB_nearest_counterexample :
    strategyB ⟨[], some [⟨"td", [⟨"x", some "/document/a"⟩]⟩,
        ⟨"div", [⟨"y", some "/document/b"⟩]⟩]⟩ = some "/document/b" ∧
    strategyBClaim ⟨[], some [⟨"td", [⟨"x", some "/document/a"⟩]⟩,
        ⟨"div", [⟨"y", some "/document/b"⟩]⟩]⟩ = some "/document/a" ∧
    harvestPdfs ⟨[], some [⟨"td", [⟨"x", some "/document/a"⟩]⟩,
        ⟨"div", [⟨"y", some "/document/b"⟩]⟩]⟩ none 2024 =
      .ok ⟨some (DOMAIN ++ "/document/b"), none, 0⟩ ∧
    some (DOMAIN ++ "/document/b") ≠ some (DOMAIN ++ "/document/a") := by
  refine ⟨by decide, by decide, rfl, by decide⟩

/-- C8 amended: Strategy B, evaluated only when Strategy A found nothing,
walks from the located "Annual Report PDF" text node to the nearest enclosing
`div` — or, only when no `div` ancestor exists, the nearest enclosing `td` —
and returns the domain-absolute URL of the first hyperlink in that container
whose href is truthy and contains `/document/`; when the text node, the
container, or such a hyperlink is absent, the annual-report result is null. -/
theorem strategyB_amended (page : DetailPage) (gspNav : Option SubPage) (year : Nat) :
    (strategyA year page.anchors = none →
       ∃ docs, harvestPdfs page gspNav year = .ok docs ∧
         docs.annual_report_url = (strategyB page).map (fun h => DOMAIN ++ h)) ∧
    (page.annualAncestors = none → strategyB page = none) ∧
    (∀ ancs, page.annualAncestors = some ancs →
       ((∃ c ∈ ancs, c.tag = "div") →
          ∃ l₁ c l₂, ancs = l₁ ++ c :: l₂ ∧ c.tag = "div" ∧
            (∀ x ∈ l₁, ¬ x.tag = "div") ∧ stratBContainer ancs = some c) ∧
       ((∀ c ∈ ancs, ¬ c.tag = "div") → (∃ c ∈ ancs, c.tag = "td") →
          ∃ l₁ c l₂, ancs = l₁ ++ c :: l₂ ∧ c.tag = "td" ∧
            (∀ x ∈ l₁, ¬ x.tag = "td") ∧ stratBContainer ancs = some c) ∧
       ((∀ c ∈ ancs, ¬ c.tag = "div" ∧ ¬ c.tag = "td") →
          stratBContainer ancs = none ∧ strategyB page = none) ∧
       (∀ cont, stratBContainer ancs = some cont →
          (cont.anchors.find? docHrefPred = none → strategyB page = none) ∧
          (∀ a h, cont.anchors.find? docHrefPred = some a → a.href = some h →
             strategyB page = some h ∧ strIn "/document/" h = true ∧
             ∃ l₁ l₂, cont.anchors = l₁ ++ a :: l₂ ∧
               ∀ x ∈ l₁, docHrefPred x = false))) := by
  refine ⟨?_, ?_, ?_⟩
  · intro hA
    refine ⟨gspPhase page gspNav ((strategyB page).map (fun h => DOMAIN ++ h)), ?_,
      gspPhase_annual _ _ _⟩
    unfold harvestPdfs
    simp only [hA]
  · intro h
    unfold strategyB
    rw [h]
  · intro ancs hanc
    refine ⟨?_, ?_, ?_, ?_⟩
    · intro ⟨c, hc, htag⟩
      cases hd : findParentTag "div" ancs with
      | none =>
        have := List.find?_eq_none.mp hd c hc
        rw [htag] at this
        simp at this
      | some c₀ =>
        obtain ⟨l₁, l₂, hdec, hp, hall⟩ := find?_split hd
        refine ⟨l₁, c₀, l₂, hdec, by simpa using hp, ?_, ?_⟩
        · intro x hx
          have := hall x hx
          simpa using this
        · unfold stratBContainer
          rw [hd]
    · intro hnod ⟨c, hc, htag⟩
      have hd : findParentTag "div" ancs = none := by
        unfold findParentTag
        rw [List.find?_eq_none]
        intro x hx
        simpa using hnod x hx
      cases ht : findParentTag "td" ancs with
      | none =>
        have := List.find?_eq_none.mp ht c hc
        rw [htag] at this
        simp at this
      | some c₀ =>
        obtain ⟨l₁, l₂, hdec, hp, hall⟩ := find?_split ht
        refine ⟨l₁, c₀, l₂, hdec, by simpa using hp, ?_, ?_⟩
        · intro x hx
          have := hall x hx
          simpa using this
        · unfold stratBContainer
          rw [hd, ht]
    · intro hno
      have hd : findParentTag "div" ancs = none := by
        unfold findParentTag
        rw [List.find?_eq_none]
        intro x hx
        simpa using (hno x hx).1
      have ht : findParentTag "td" ancs = none := by
        unfold findParentTag
        rw [List.find?_eq_none]
        intro x hx
        simpa using (hno x hx).2
      have hcont : stratBContainer ancs = none := by
        unfold stratBContainer
        rw [hd, ht]
      refine ⟨hcont, ?_⟩
      unfold strategyB
      rw [hanc]
      simp only [hcont]
    · intro cont hcont
      constructor
      · intro hfd
        unfold strategyB
        rw [hanc]
        simp only [hcont, hfd, Option.none_bind]
      · intro a h hfd hh
        refine ⟨?_, ?_, ?_⟩
        · unfold strategyB
          rw [hanc]
          simp only [hcont, hfd, Option.some_bind, hh]
        · have hp := List.find?_some hfd
          unfold docHrefPred at hp
          rw [hh] at hp
          simp only [Bool.and_eq_true] at hp
          exact hp.2
        · obtain ⟨l₁, l₂, hdec, _, hall⟩ := find?_split hfd
          exact ⟨l₁, l₂, hdec, hall⟩

/-- Witness for C8 amended: the section-fallback end-to-end example — no
Strategy-A match, text node in a `td` with a `/document/` link — resolves to
the domain-absolute fallback URL. -/
theorem strategyB_amended_witness :
    ∃ docs,
      harvestPdfs ⟨[⟨"other", some "/x"⟩],
          some [⟨"td", [⟨"report", some "/document/9"⟩]⟩]⟩ none 2024 = .ok docs ∧
      docs.annual_report_url =
        (strategyB ⟨[⟨"other", some "/x"⟩],
            some [⟨"td", [⟨"report", some "/document/9"⟩]⟩]⟩).map (fun h => DOMAIN ++ h) :=
  (strategyB_amended ⟨[⟨"other", some "/x"⟩],
      some [⟨"td", [⟨"report", some "/document/9"⟩]⟩]⟩ none 2024).1 (by decide)

/-- Any non-null `gsp_url` produced by the GSP phase is the domain prefix
plus the raw href of an anchor of the sub-page the hop reached. -/
theorem gspPhase_gsp_shape (detail : DetailPage) (gspNav : Option SubPage)
    (annual : Option String) (u : String)
    (h : (gspPhase detail gspNav annual).gsp_url = some u) :
    ∃ sub anc hr, gspNav = some sub ∧ anc ∈ sub.anchors ∧ anc.href = some hr ∧
      u = DOMAIN ++ hr := by
  unfold gspPhase at h
  cases hg : detail.anchors.find? gspPred with
  | none =>
    simp only [hg] at h
    cases h
  | some g =>
    cases ghr : g.href with
    | none =>
      simp only [hg, ghr] at h
      cases h
    | some gh =>
      by_cases hge : gh = ""
      · simp only [hg, ghr, hge, if_true] at h
        cases h
      · simp only [hg, ghr, if_neg hge] at h
        cases gspNav with
        | none =>
          simp only at h
          cases h
        | some sub =>
          simp only at h
          cases hfd : sub.anchors.find? pdfHrefPred with
          | none =>
            simp only [hfd, Option.none_bind] at h
            cases h
          | some fa =>
            simp only [hfd, Option.some_bind] at h
            cases fhr : fa.href with
            | none =>
              simp only [fhr] at h
              cases h
            | some h2 =>
              simp only [fhr] at h
              injection h with h
              exact ⟨sub, fa, h2, rfl, List.mem_of_find?_eq_some hfd, fhr, h.symm⟩

/-- C10: whenever a basin match was found (non-null detail URL) and the query
returns normally, the result is the four-field `found` record carrying the
matched name and year, and each non-null URL in it is the fixed domain string
concatenated with the raw href of an anchor of the page it was harvested
from. -/
theorem result_shape_domain (env : QueryEnv) (identifier : String)
    (url name : String) (yr : Nat) (r : QueryResult)
    (hfind : findBasinPage env.listing identifier = .ok (some url, yr, name))
    (hok : getBasinDocuments env identifier = .ok r) :
    ∃ a g, r = .found name yr a g ∧
      (∀ u, a = some u → ∃ anc h, anchorOnDetail env.detail anc ∧ anc.href = some h ∧
         u = "https://sgma.water.ca.gov" ++ h) ∧
      (∀ u, g = some u → ∃ sub anc h, env.gspNav = some sub ∧ anc ∈ sub.anchors ∧
         anc.href = some h ∧ u = "https://sgma.water.ca.gov" ++ h) := by
  unfold getBasinDocuments at hok
  rw [hfind] at hok
  cases hh : harvestPdfs env.detail env.gspNav yr with
  | error e =>
    simp only [hh] at hok
    exact Except.noConfusion hok
  | ok docs =>
    simp only [hh] at hok
    injection hok with hok
    refine ⟨docs.annual_report_url, docs.gsp_url, hok.symm, ?_, ?_⟩
    · intro u hu
      unfold harvestPdfs at hh
      cases hA : strategyA yr env.detail.anchors with
      | some a0 =>
        cases hhr : a0.href with
        | none =>
          simp only [hA, hhr] at hh
          exact Except.noConfusion hh
        | some h0 =>
          simp only [hA, hhr] at hh
          injection hh with hh
          have hann : docs.annual_report_url = some (DOMAIN ++ h0) := by
            rw [← hh, gspPhase_annual]
          rw [hann] at hu
          injection hu with hu
          exact ⟨a0, h0, Or.inl (List.mem_of_find?_eq_some hA), hhr, hu.symm⟩
      | none =>
        simp only [hA] at hh
        injection hh with hh
        have hann : docs.annual_report_url =
            (strategyB env.detail).map (fun h => DOMAIN ++ h) := by
          rw [← hh, gspPhase_annual]
        rw [hann] at hu
        cases hB : strategyB env.detail with
        | none =>
          rw [hB] at hu
          cases hu
        | some hb =>
          rw [hB] at hu
          injection hu with hu
          unfold strategyB at hB
          cases hanc : env.detail.annualAncestors with
          | none =>
            rw [hanc] at hB
            cases hB
          | some ancs =>
            simp only [hanc] at hB
            cases hcont : stratBContainer ancs with
            | none =>
              simp only [hcont] at hB
              cases hB
            | some cont =>
              simp only [hcont] at hB
              cases hfd : cont.anchors.find? docHrefPred with
              | none =>
                simp only [hfd, Option.none_bind] at hB
                cases hB
              | some a1 =>
                simp only [hfd, Option.some_bind] at hB
                refine ⟨a1, hb,
                  Or.inr ⟨ancs, hanc, cont, stratBContainer_mem hcont,
                    List.mem_of_find?_eq_some hfd⟩, hB, hu.symm⟩
    · intro u hu
      unfold harvestPdfs at hh
      cases hA : strategyA yr env.detail.anchors with
      | some a0 =>
        cases hhr : a0.href with
        | none =>
          simp only [hA, hhr] at hh
          exact Except.noConfusion hh
        | some h0 =>
          simp only [hA, hhr] at hh
          injection hh with hh
          have hg : (gspPhase env.detail env.gspNav (some (DOMAIN ++ h0))).gsp_url = some u := by
            rw [hh, hu]
          exact gspPhase_gsp_shape _ _ _ _ hg
      | none =>
        simp only [hA] at hh
        injection hh with hh
        have hg : (gspPhase env.detail env.gspNav
            ((strategyB env.detail).map (fun h => DOMAIN ++ h))).gsp_url = some u := by
          rw [hh, hu]
        exact gspPhase_gsp_shape _ _ _ _ hg

/-- Witness for C10: an end-to-end query whose result record carries both
URLs; the theorem then exhibits them as domain-prefixed raw hrefs. -/
theorem result_shape_domain_witness :
    ∃ a g,
      QueryResult.found "Basin A" 2024
          (some (DOMAIN ++ "/document/555")) (some (DOMAIN ++ "/plan.pdf")) =
        .found "Basin A" 2024 a g ∧
      (∀ u, a = some u →
        ∃ anc h,
          anchorOnDetail
              ⟨[⟨"3-001_WY_2024.pdf", some "/document/555"⟩, ⟨"GSP 2022", some "/gsp"⟩], none⟩
              anc ∧
          anc.href = some h ∧ u = "https://sgma.water.ca.gov" ++ h) ∧
      (∀ u, g = some u →
        ∃ sub anc h,
          (some (⟨[⟨"plan", some "/plan.pdf"⟩]⟩ : SubPage) : Option SubPage) = some sub ∧
          anc ∈ sub.anchors ∧ anc.href = some h ∧ u = "https://sgma.water.ca.gov" ++ h) :=
  result_shape_domain
    ⟨⟨some ⟨["Basin", "Year"]⟩, [⟨[⟨"Basin A", some ⟨"a", some "/r/1"⟩⟩, ⟨"2024", none⟩]⟩]⟩,
      ⟨[⟨"3-001_WY_2024.pdf", some "/document/555"⟩, ⟨"GSP 2022", some "/gsp"⟩], none⟩,
      some ⟨[⟨"plan", some "/plan.pdf"⟩]⟩⟩
    "basin a" (DOMAIN ++ "/r/1") "Basin A" 2024
    (.found "Basin A" 2024 (some (DOMAIN ++ "/document/555")) (some (DOMAIN ++ "/plan.pdf")))
    rfl rfl

end DocumentHunter
